import Mathlib

/-!
Verification of the messaging subsystem of `lib-common`:
the CloudEvent envelope codec (`logger.go`, package `kafka` part),
the Kafka `Producer` (`kafka/producer.go`), the Kafka `Consumer`
(consume loop), and the paginated HTTP response helper.

Go code is shallowly embedded: JSON texts are modelled as parsed JSON
values (a syntactically malformed byte sequence is a separate
`WireBytes.malformed` constructor), effectful inputs (UUID generation,
clock) are explicit parameters, and the broker is a behaviour function
passed to `Publish`.  Timestamps are carried as their RFC3339 wire
strings, validated by an executable model of the strict RFC3339 parser
Go's `time.Time` JSON decoding uses, and struct-field keys match
case-insensitively (ASCII case folding) as in `encoding/json`.
-/

namespace LibCommon

/-- Model of a JSON value, the common currency of `encoding/json`.
Numbers are modelled as integers (no field of the envelope is numeric,
so numeric fidelity is irrelevant here). -/
inductive Json where
  | null : Json
  | bool (b : Bool) : Json
  | num (n : Int) : Json
  | str (s : String) : Json
  | arr (elems : List Json) : Json
  | obj (fields : List (String × Json)) : Json

/-- Lower-case an ASCII upper-case letter, the character-level case
folding of `strings.EqualFold` restricted to ASCII.  (Unicode simple
folding beyond ASCII — e.g. the long s U+017F folding to `s` — is not
modelled; the theorems whose truth depends on key matching therefore
restrict object keys to ASCII.) -/
def foldChar (c : Char) : Char :=
  if 'A' ≤ c && c ≤ 'Z' then Char.ofNat (c.toNat + 32) else c

/-- Case-insensitive string equality (ASCII fold), the key comparison
`encoding/json` falls back to when matching object keys to struct
fields. -/
def eqFold (a b : String) : Bool :=
  a.toList.map foldChar == b.toList.map foldChar

/-- Resolve a struct field's key in a JSON object's field list the way
`encoding/json` does for the `CloudEvent` struct: a key matches the field
when it is equal up to ASCII case folding (the six tag names are distinct
even case-insensitively, so exact-match preference never changes the
outcome), keys are processed in order, and a later matching key
overwrites an earlier one, so the LAST match wins. -/
def fieldLookup (fields : List (String × Json)) (key : String) : Option Json :=
  fields.foldl (fun acc p => if eqFold p.1 key then some p.2 else acc) none

/-- Leap-year test of Go `time.isLeap`. -/
def isLeap (year : Nat) : Bool :=
  year % 4 == 0 && (year % 100 != 0 || year % 400 == 0)

/-- Days of a month, Go `time.daysIn`. -/
def daysIn (month year : Nat) : Nat :=
  if month == 2 then (if isLeap year then 29 else 28)
  else if month == 4 || month == 6 || month == 9 || month == 11 then 30
  else 31

/-- Numeric value of a decimal digit character. -/
def digVal (c : Char) : Nat := c.toNat - 48

/-- Value of a two-digit decimal field. -/
def num2 (a b : Char) : Nat := 10 * digVal a + digVal b

/-- Time-zone suffix accepted by Go `time.parseRFC3339`: the literal `Z`
or a signed `hh:mm` offset with hour at most 23 and minute at most 59. -/
def zoneOk : List Char → Bool
  | ['Z'] => true
  | [sg, a, b, ':', c, d] =>
      (sg == '+' || sg == '-') && a.isDigit && b.isDigit && c.isDigit && d.isDigit &&
      num2 a b ≤ 23 && num2 c d ≤ 59
  | _ => false

/-- After the seconds field: an optional fraction — a dot followed by at
least one digit, with every following digit consumed (Go ignores
nanosecond overflow here) — and then the zone suffix. -/
def fracZoneOk : List Char → Bool
  | '.' :: c :: rest =>
      if c.isDigit then zoneOk (rest.dropWhile Char.isDigit)
      else zoneOk ('.' :: c :: rest)
  | rest => zoneOk rest

/-- The strict RFC3339 grammar accepted by Go's `time.Time` JSON decoding
(`time.parseRFC3339`): four-digit year, dash, two-digit month in 1..12,
dash, two-digit day in 1..daysIn(month, year), a literal `T`, two-digit
hour at most 23, colon, minute and second at most 59, optional fractional
seconds, and a `Z` or signed-offset zone. -/
def rfc3339Valid (s : String) : Bool :=
  match s.toList with
  | y1 :: y2 :: y3 :: y4 :: '-' :: m1 :: m2 :: '-' :: d1 :: d2 :: 'T' ::
      h1 :: h2 :: ':' :: n1 :: n2 :: ':' :: s1 :: s2 :: rest =>
      y1.isDigit && y2.isDigit && y3.isDigit && y4.isDigit &&
      m1.isDigit && m2.isDigit && d1.isDigit && d2.isDigit &&
      h1.isDigit && h2.isDigit && n1.isDigit && n2.isDigit &&
      s1.isDigit && s2.isDigit &&
      1 ≤ num2 m1 m2 && num2 m1 m2 ≤ 12 &&
      1 ≤ num2 d1 d2 &&
      num2 d1 d2 ≤ daysIn (num2 m1 m2)
        (1000 * digVal y1 + 100 * digVal y2 + 10 * digVal y3 + digVal y4) &&
      num2 h1 h2 ≤ 23 && num2 n1 n2 ≤ 59 && num2 s1 s2 ≤ 59 &&
      fracZoneOk rest
  | _ => false

/-- A `time.Time` value as carried by the envelope, represented by its
RFC3339 wire string, valid by construction: every such value in the
program comes from the clock or from a successful RFC3339 parse, and Go's
marshalled form (RFC3339Nano) is a valid RFC3339 string. -/
structure GoTime where
  wire : String
  valid : rfc3339Valid wire = true

/-- The zero `time.Time`, whose wire form is `0001-01-01T00:00:00Z`. -/
def zeroGoTime : GoTime :=
  { wire := "0001-01-01T00:00:00Z", valid := by decide }

/-- The `kafka.CloudEvent` struct (defined alongside the logger in the
source).  `Time` is modelled by its RFC3339 wire string (`GoTime`);
`Data` is a `json.RawMessage`, i.e. a captured raw JSON value, `none`
when the field was never set (`nil` slice).  The Go field `Type` is
`eventType` here because `Type` is not a usable field name in Lean. -/
structure CloudEvent where
  id : String
  source : String
  eventType : String
  time : GoTime
  dataContentType : String
  data : Option Json

/-- Serialization `json.Marshal` of a `CloudEvent`: an object with the six tagged keys in
declaration order; a `nil` `RawMessage` marshals as JSON `null`. -/
def marshalCloudEvent (e : CloudEvent) : Json :=
  Json.obj [("id", Json.str e.id), ("source", Json.str e.source),
            ("type", Json.str e.eventType), ("time", Json.str e.time.wire),
            ("datacontenttype", Json.str e.dataContentType),
            ("data", match e.data with | some j => j | none => Json.null)]

/-- A transport-level byte sequence: either well formed JSON (represented
by its parse) or a syntactically malformed sequence. -/
inductive WireBytes where
  | wellFormed (j : Json) : WireBytes
  | malformed (raw : String) : WireBytes

/-- A Go value handed to `json.Marshal`: a JSON-representable value, a
`CloudEvent` struct, or an unserializable value (channel, function, ...)
on which `Marshal` errors. -/
inductive GoValue where
  | json (j : Json) : GoValue
  | cloudEvent (e : CloudEvent) : GoValue
  | unserializable (tag : String) : GoValue

/-- Model of `json.Marshal` on the payload values that occur in this library. -/
def goMarshal : GoValue → Except String Json
  | GoValue.json j => Except.ok j
  | GoValue.cloudEvent e => Except.ok (marshalCloudEvent e)
  | GoValue.unserializable tag => Except.error ("json: unsupported type: " ++ tag)

/-- Semantics of `json.Unmarshal` for a `string`-typed struct field: an
absent key or a JSON `null` leaves the zero value, a string is taken
verbatim, and any other JSON type is an unmarshal type error. -/
def getStringField (fields : List (String × Json)) (key : String) : Except String String :=
  match fieldLookup fields key with
  | none => Except.ok ""
  | some Json.null => Except.ok ""
  | some (Json.str s) => Except.ok s
  | some _ => Except.error ("json: cannot unmarshal into field " ++ key)

/-- Semantics of `json.Unmarshal` for the `time.Time` field, which
delegates to `time.Time.UnmarshalJSON`: an absent key or a JSON `null`
leaves the zero time, a string must parse as strict RFC3339 and any
other string is a parse error, and a non-string JSON value is an
error. -/
def getTimeField (fields : List (String × Json)) : Except String GoTime :=
  match fieldLookup fields "time" with
  | none => Except.ok zeroGoTime
  | some Json.null => Except.ok zeroGoTime
  | some (Json.str s) =>
      if h : rfc3339Valid s = true then Except.ok { wire := s, valid := h }
      else Except.error "parsing time: string is not RFC3339"
  | some _ => Except.error "json: cannot unmarshal into field time"

/-- Function `ParseCloudEvent` from the source: `json.Unmarshal(data, &event)`.
Unmarshalling a struct succeeds on a JSON object (absent keys leave zero
values) and on JSON `null` (no-op), and fails on a syntactically
malformed sequence, on any other top-level JSON type, and on a present
field whose own unmarshalling fails (a non-string metadata field, or a
time field that is not RFC3339).  The `data` field is a
`json.RawMessage`, which captures any raw JSON value verbatim. -/
def ParseCloudEvent (b : WireBytes) : Except String CloudEvent :=
  match b with
  | WireBytes.malformed _ => Except.error "failed to parse cloud event: invalid JSON"
  | WireBytes.wellFormed Json.null =>
      Except.ok { id := "", source := "", eventType := "", time := zeroGoTime,
                  dataContentType := "", data := none }
  | WireBytes.wellFormed (Json.obj fields) =>
      match getStringField fields "id", getStringField fields "source",
            getStringField fields "type", getTimeField fields,
            getStringField fields "datacontenttype" with
      | Except.ok i, Except.ok s, Except.ok t, Except.ok tm, Except.ok ct =>
          Except.ok { id := i, source := s, eventType := t, time := tm,
                      dataContentType := ct, data := fieldLookup fields "data" }
      | Except.error e, _, _, _, _ => Except.error ("failed to parse cloud event: " ++ e)
      | _, Except.error e, _, _, _ => Except.error ("failed to parse cloud event: " ++ e)
      | _, _, Except.error e, _, _ => Except.error ("failed to parse cloud event: " ++ e)
      | _, _, _, Except.error e, _ => Except.error ("failed to parse cloud event: " ++ e)
      | _, _, _, _, Except.error e => Except.error ("failed to parse cloud event: " ++ e)
  | WireBytes.wellFormed _ =>
      Except.error "failed to parse cloud event: cannot unmarshal into CloudEvent"

/-- Function `NewCloudEvent` from the source.  The effectful inputs (`uuid.New()`
and `time.Now().UTC()`) are the explicit parameters `id` and `now`;
marshalling of the caller's data may fail exactly as in the source. -/
def NewCloudEvent (id : String) (now : GoTime) (source eventType : String) (data : GoValue) :
    Except String CloudEvent :=
  match goMarshal data with
  | Except.error e => Except.error ("failed to marshal event data: " ++ e)
  | Except.ok dataBytes =>
      Except.ok { id := id, source := source, eventType := eventType, time := now,
                  dataContentType := "application/json", data := some dataBytes }

/-- Method `CloudEvent.ParseData`: `json.Unmarshal(e.Data, target)`.  The decoded
target value is the payload's JSON value; unmarshalling a `nil`
`RawMessage` is the Go error `unexpected end of JSON input`. -/
def CloudEvent.ParseData (e : CloudEvent) : Except String Json :=
  match e.data with
  | none => Except.error "unexpected end of JSON input"
  | some j => Except.ok j

/-- A `kafka.Writer` as configured by `Producer.getWriter`: the broker
addresses and the topic vary per writer; the balancer (`LeastBytes`), the
10ms `BatchTimeout` and the `RequireOne` acknowledgment policy are the
fixed literals of the source. -/
structure Writer where
  addr : List String
  topic : String
  batchTimeoutMs : Nat
  requiredAcks : Int

/-- The writer literal built in `getWriter` for a topic. -/
def mkWriter (brokers : List String) (topic : String) : Writer :=
  { addr := brokers, topic := topic, batchTimeoutMs := 10, requiredAcks := 1 }

/-- First-match association lookup: the view of Go's `map[string]*kafka.Writer`
(whose keys are unique, so first match equals the map lookup). -/
def lookupTopic : List (String × Writer) → String → Option Writer
  | [], _ => none
  | (t, w) :: rest, topic => if t = topic then some w else lookupTopic rest topic

/-- The `kafka.Producer` struct: the topic-to-writer map (as an association
list with unique keys) and the broker list.  The logger collaborator is
effect-free for the properties below and is elided. -/
structure Producer where
  writers : List (String × Writer)
  brokers : List String

/-- Constructor `NewProducer`: empty writer map. -/
def NewProducer (brokers : List String) : Producer :=
  { writers := [], brokers := brokers }

/-- Method `Producer.getWriter`: return the cached writer for the topic, or create
one, cache it and return it.  (The source performs this map access with no
lock; this definition is its sequential, single-caller meaning.  The
interleaved meaning is given by `gwStep` below.) -/
def Producer.getWriter (p : Producer) (topic : String) : Writer × Producer :=
  match lookupTopic p.writers topic with
  | some w => (w, p)
  | none =>
      let w := mkWriter p.brokers topic
      (w, { writers := p.writers ++ [(topic, w)], brokers := p.brokers })

/-- A `kafka.Message` as built by `Publish`: key bytes and marshalled value
(the send timestamp `time.Now().UTC()` plays no role in the claims and is
elided). -/
structure Message where
  key : String
  value : Json

/-- Method `Producer.Publish`.  Here `wr` is the behaviour of
`writer.WriteMessages(ctx, msg)` — the broker/transport collaborator.
Returns the call's result, the producer state after the call, and the list
of write calls issued to the broker.  Mirrors the source: marshal the
payload (wrapped error on failure, before any map access), get or create
the writer, send one message, wrap a transport error with the topic name;
the map is only ever touched by `getWriter`. -/
def Producer.Publish (wr : Writer → Message → Except String Unit) (p : Producer)
    (topic key : String) (payload : GoValue) :
    Except String Unit × Producer × List (Writer × Message) :=
  match goMarshal payload with
  | Except.error e => (Except.error ("failed to marshal payload: " ++ e), p, [])
  | Except.ok data =>
      let wp := p.getWriter topic
      let msg : Message := { key := key, value := data }
      match wr wp.1 msg with
      | Except.error e =>
          (Except.error ("failed to publish to " ++ topic ++ ": " ++ e), wp.2, [(wp.1, msg)])
      | Except.ok _ => (Except.ok (), wp.2, [(wp.1, msg)])

/-- Method `Producer.PublishEvent`: `p.Publish(ctx, topic, event.ID, event)`. -/
def Producer.PublishEvent (wr : Writer → Message → Except String Unit) (p : Producer)
    (topic : String) (event : CloudEvent) :
    Except String Unit × Producer × List (Writer × Message) :=
  Producer.Publish wr p topic event.id (GoValue.cloudEvent event)

/-- State after `n` sequential `Publish` calls to topic `topic`, with the
`i`-th call using key `keys i` and payload `payloads i`. -/
def publishSeq (wr : Writer → Message → Except String Unit) (p : Producer)
    (topic : String) (keys : Nat → String) (payloads : Nat → GoValue) : Nat → Producer
  | 0 => p
  | n + 1 => (Producer.Publish wr (publishSeq wr p topic keys payloads n) topic
                (keys n) (payloads n)).2.1

/-- Number of map entries for a topic. -/
def countTopic (ws : List (String × Writer)) (topic : String) : Nat :=
  ws.countP (fun e => e.1 = topic)

/-! ### Interleaved semantics of `getWriter`

`Producer.getWriter` reads and writes the plain Go map `p.writers` with no
mutex (the `Producer` struct has no lock field).  Its two memory
operations — the map read `p.writers[topic]` and, on a miss, the
composite-literal allocation plus map insert — are therefore separate
atomic events whose interleavings across goroutines are all possible.
Writers are identified by allocation number so distinct creation events
yield observably distinct connection objects. -/

/-- Shared state of the racing model: the map (topic to allocation id),
the allocation counter and the number of writer objects created so far. -/
structure RaceState where
  writers : List (String × Nat)
  nextId : Nat
  created : Nat

/-- First-match lookup in the topic-to-allocation map. -/
def lookupAlloc : List (String × Nat) → String → Option Nat
  | [], _ => none
  | (t, w) :: rest, topic => if t = topic then some w else lookupAlloc rest topic

/-- Map insert with Go semantics: an existing key is overwritten. -/
def insertAlloc : List (String × Nat) → String → Nat → List (String × Nat)
  | [], topic, w => [(topic, w)]
  | (t, w0) :: rest, topic, w =>
      if t = topic then (t, w) :: rest else (t, w0) :: insertAlloc rest topic w

/-- Program counter of one goroutine executing `getWriter topic`. -/
inductive GwPC where
  | atCheck : GwPC
  | atCreate : GwPC
  | finished (wid : Nat) : GwPC

/-- One atomic step of `getWriter topic` by one goroutine: the map read
(hit returns the cached writer, miss falls through to creation), or the
creation-and-insert.  A finished goroutine does nothing. -/
def gwStep (topic : String) : GwPC → RaceState → GwPC × RaceState
  | GwPC.atCheck, s =>
      match lookupAlloc s.writers topic with
      | some w => (GwPC.finished w, s)
      | none => (GwPC.atCreate, s)
  | GwPC.atCreate, s =>
      (GwPC.finished s.nextId,
       { writers := insertAlloc s.writers topic s.nextId,
         nextId := s.nextId + 1, created := s.created + 1 })
  | GwPC.finished w, s => (GwPC.finished w, s)

/-- Run two goroutines, each executing `getWriter topic`, under a schedule
(`true` steps goroutine A, `false` goroutine B). -/
def gwRace (topic : String) : List Bool → GwPC × GwPC × RaceState → GwPC × GwPC × RaceState
  | [], st => st
  | b :: rest, (pcA, pcB, s) =>
      if b then
        let r := gwStep topic pcA s
        gwRace topic rest (r.1, pcB, r.2)
      else
        let r := gwStep topic pcB s
        gwRace topic rest (pcA, r.1, r.2)

/-- A fresh producer's shared state: empty map, no allocations. -/
def raceInit : RaceState :=
  { writers := [], nextId := 0, created := 0 }

/-! ### The consumer loop -/

/-- A fetched `kafka.Message` as seen by the consume loop. -/
structure Msg where
  offset : Int
  key : String
  value : Json

/-- Observable events of one run of `Consumer.Consume`: calls to
`FetchMessage` and `CommitMessages`, handler outcomes, and the error-level
log lines of the loop. -/
inductive ConsumeEvent where
  | fetchCall : ConsumeEvent
  | fetchErrLogged : ConsumeEvent
  | handleOk (offset : Int) : ConsumeEvent
  | handleErrLogged (offset : Int) : ConsumeEvent
  | commitCall (offset : Int) : ConsumeEvent
  | commitFailLogged (offset : Int) : ConsumeEvent

/-- Environment behaviour for one iteration of the consume loop:
whether `ctx.Done()` is ready at the `select`, the value `ctx.Err()` would
return there, the outcome of `FetchMessage`, the value of `ctx.Err()` at
the check inside the fetch-error branch (`some e` means the context was
cancelled by then), and whether the handler and the commit fail. -/
structure Iter where
  ctxDoneAtSelect : Bool
  selectCtxErr : String
  fetch : Except String Msg
  ctxErrAtFetchFail : Option String
  handlerFails : Bool
  commitFails : Bool

/-- One iteration of the `for`/`select` loop of `Consumer.Consume`.
Result `(some r, evs)`: the loop returns `r` after events `evs`;
`(none, evs)`: the iteration ends in `continue`.  Mirrors the source:
ctx-done at the select returns `ctx.Err()`; a fetch error returns
`ctx.Err()` when the context is cancelled and otherwise logs and
continues; a handler error logs and continues without any commit; on
handler success `CommitMessages` is called, and a commit failure is only
logged. -/
def consumeStep (it : Iter) : Option String × List ConsumeEvent :=
  if it.ctxDoneAtSelect then (some it.selectCtxErr, [])
  else
    match it.fetch with
    | Except.error _ =>
        match it.ctxErrAtFetchFail with
        | some ce => (some ce, [ConsumeEvent.fetchCall])
        | none => (none, [ConsumeEvent.fetchCall, ConsumeEvent.fetchErrLogged])
    | Except.ok m =>
        if it.handlerFails then
          (none, [ConsumeEvent.fetchCall, ConsumeEvent.handleErrLogged m.offset])
        else if it.commitFails then
          (none, [ConsumeEvent.fetchCall, ConsumeEvent.handleOk m.offset,
                  ConsumeEvent.commitCall m.offset, ConsumeEvent.commitFailLogged m.offset])
        else
          (none, [ConsumeEvent.fetchCall, ConsumeEvent.handleOk m.offset,
                  ConsumeEvent.commitCall m.offset])

/-- The consume loop over a finite script of environment behaviours.
`(some r, tr)`: the loop returned `r` with observable trace `tr`;
`(none, tr)`: the script ran out with the loop still running. -/
def consumeLoop : List Iter → Option String × List ConsumeEvent
  | [] => (none, [])
  | it :: rest =>
      match consumeStep it with
      | (some r, evs) => (some r, evs)
      | (none, evs) =>
          let tail := consumeLoop rest
          (tail.1, evs ++ tail.2)

/-- A trace commits only immediately after a successful handling of the
same message: every `commitCall o` is directly preceded by `handleOk o`. -/
def commitOnlyAfterHandle : List ConsumeEvent → Bool
  | [] => true
  | ConsumeEvent.handleOk o :: ConsumeEvent.commitCall o' :: rest =>
      o = o' && commitOnlyAfterHandle rest
  | ConsumeEvent.commitCall _ :: _ => false
  | _ :: rest => commitOnlyAfterHandle rest

/-! ### The paginated response helper -/

/-- Field `total_pages` as computed by `response.Paginated`:
`totalPages := int(total) / limit; if int(total) % limit > 0 { totalPages++ }`.
Go `/` and `%` on integers truncate toward zero (`Int.tdiv` / `Int.tmod`);
Go panics on integer division by zero, modelled as `none`. -/
def paginatedTotalPages (total : Int) (limit : Int) : Option Int :=
  if limit = 0 then none
  else
    let totalPages := total.tdiv limit
    some (if total.tmod limit > 0 then totalPages + 1 else totalPages)

theorem getTimeField_of_found (fields : List (String × Json)) (w : String)
    (hw : rfc3339Valid w = true)
    (hf : fieldLookup fields "time" = some (Json.str w)) :
    getTimeField fields = Except.ok { wire := w, valid := hw } := by
  unfold getTimeField
  rw [hf]
  dsimp only
  rw [dif_pos hw]

theorem lookupTopic_append_self (ws : List (String × Writer)) (t : String) (w : Writer)
    (h : lookupTopic ws t = none) :
    lookupTopic (ws ++ [(t, w)]) t = some w := by
  induction ws with
  | nil => simp [lookupTopic]
  | cons hd tl ih =>
      unfold lookupTopic at h ⊢
      by_cases he : hd.1 = t
      · simp [he] at h
      · rw [if_neg he] at h
        rw [List.cons_append]
        show lookupTopic ((hd.1, hd.2) :: (tl ++ [(t, w)])) t = some w
        unfold lookupTopic
        rw [if_neg he]
        exact ih h

theorem getWriter_of_found (p : Producer) (t : String) (w : Writer)
    (h : lookupTopic p.writers t = some w) : p.getWriter t = (w, p) := by
  unfold Producer.getWriter
  rw [h]

theorem getWriter_lookup (p : Producer) (t : String) :
    lookupTopic (p.getWriter t).2.writers t = some (p.getWriter t).1 := by
  unfold Producer.getWriter
  cases h : lookupTopic p.writers t with
  | some w => simpa using h
  | none => simpa using lookupTopic_append_self p.writers t (mkWriter p.brokers t) h

theorem countTopic_of_lookup_none (ws : List (String × Writer)) (t : String)
    (h : lookupTopic ws t = none) : countTopic ws t = 0 := by
  induction ws with
  | nil => rfl
  | cons hd tl ih =>
      unfold lookupTopic at h
      by_cases he : hd.1 = t
      · simp [he] at h
      · rw [if_neg he] at h
        unfold countTopic at ih ⊢
        simp [List.countP_cons, he, ih h]

/-! ## Claim theorems -/

/-- C8: for every broker behaviour, producer state, topic and envelope,
`PublishEvent` is exactly `Publish` with the same topic, the envelope's id
as the message key, and the envelope itself as the payload — same result,
same final state, same messages sent. -/
theorem publishEvent_is_publish_with_event_id
    (wr : Writer → Message → Except String Unit) (p : Producer)
    (topic : String) (event : CloudEvent) :
    Producer.PublishEvent wr p topic event
      = Producer.Publish wr p topic event.id (GoValue.cloudEvent event) := rfl

/-- C2: `getWriter`'s lazy-init path is NOT protected by mutual exclusion
(the `Producer` struct has no lock).  Run sequentially (schedule A,A,B,B)
the two `getWriter` calls for the same unseen topic create one writer, but
under the interleaving A-check, B-check, A-create, B-create both goroutines
miss the empty map and two writer objects are created for the one topic,
contradicting the at-most-once-creation claim. -/
theorem getWriter_race_creates_two_writers :
    (gwRace "orders" [true, true, false, false]
        (GwPC.atCheck, GwPC.atCheck, raceInit)).2.2.created = 1 ∧
    (gwRace "orders" [true, false, true, false]
        (GwPC.atCheck, GwPC.atCheck, raceInit)).2.2.created = 2 := by
  constructor <;> rfl

/-- Decoding the marshalled form of an envelope whose payload field is set
recovers the envelope exactly. -/
theorem parse_marshal_of_data_some (e : CloudEvent) (d : Json) (hd : e.data = some d) :
    ParseCloudEvent (WireBytes.wellFormed (marshalCloudEvent e)) = Except.ok e := by
  obtain ⟨i, s, t, ⟨w, hw⟩, ct, dt⟩ := e
  simp only [CloudEvent.data] at hd
  subst hd
  dsimp only [marshalCloudEvent, ParseCloudEvent]
  rw [getTimeField_of_found [("id", Json.str i), ("source", Json.str s), ("type", Json.str t),
        ("time", Json.str w), ("datacontenttype", Json.str ct), ("data", d)] w hw rfl]
  rfl

/-- C4: for all valid inputs whose data serializes, creating an envelope,
serializing it and decoding it reproduces the original source and type,
and `ParseData` on the decoded envelope recovers the serialized data
(round-trip law).  The decode in fact recovers the whole envelope. -/
theorem cloudEvent_round_trip (id : String) (now : GoTime) (source eventType : String)
    (data : GoValue) (d : Json) (h : goMarshal data = Except.ok d) :
    ∃ e : CloudEvent,
      NewCloudEvent id now source eventType data = Except.ok e ∧
      ParseCloudEvent (WireBytes.wellFormed (marshalCloudEvent e)) = Except.ok e ∧
      e.source = source ∧ e.eventType = eventType ∧
      e.ParseData = Except.ok d := by
  refine ⟨{ id := id, source := source, eventType := eventType, time := now,
            dataContentType := "application/json", data := some d }, ?_, ?_, rfl, rfl, rfl⟩
  · unfold NewCloudEvent
    rw [h]
  · exact parse_marshal_of_data_some _ d rfl

/-- A concrete clock value for the round-trip witness. -/
def sampleTime : GoTime :=
  { wire := "2024-01-01T00:00:00Z", valid := by decide }

/-- Witness for C4: a concrete envelope for `order-service` /
`order.created` with an object payload round-trips. -/
theorem cloudEvent_round_trip_witness :
    ∃ e : CloudEvent,
      NewCloudEvent "ev-1" sampleTime "order-service" "order.created"
          (GoValue.json (Json.obj [("orderId", Json.str "123")])) = Except.ok e ∧
      ParseCloudEvent (WireBytes.wellFormed (marshalCloudEvent e)) = Except.ok e ∧
      e.source = "order-service" ∧ e.eventType = "order.created" ∧
      e.ParseData = Except.ok (Json.obj [("orderId", Json.str "123")]) :=
  cloudEvent_round_trip "ev-1" sampleTime "order-service" "order.created"
    (GoValue.json (Json.obj [("orderId", Json.str "123")]))
    (Json.obj [("orderId", Json.str "123")]) rfl

/-- C9: a payload whose serialization fails makes `Publish` return the
wrapped marshal error with the producer state exactly as it was and no
message sent to the broker — the connection map is never touched. -/
theorem publish_marshal_failure_leaves_state
    (wr : Writer → Message → Except String Unit) (p : Producer)
    (topic key : String) (payload : GoValue) (emsg : String)
    (h : goMarshal payload = Except.error emsg) :
    Producer.Publish wr p topic key payload
      = (Except.error ("failed to marshal payload: " ++ emsg), p, []) := by
  unfold Producer.Publish
  rw [h]

/-- Witness for C9: publishing a channel-valued payload on a fresh
producer fails with the wrapped marshal error, leaves the empty writer map
empty, and sends nothing. -/
theorem publish_marshal_failure_leaves_state_witness :
    Producer.Publish (fun _ _ => Except.ok ()) (NewProducer ["broker1"])
        "orders" "k1" (GoValue.unserializable "chan int")
      = (Except.error ("failed to marshal payload: " ++ "json: unsupported type: chan int"),
         NewProducer ["broker1"], []) :=
  publish_marshal_failure_leaves_state (fun _ _ => Except.ok ()) (NewProducer ["broker1"])
    "orders" "k1" (GoValue.unserializable "chan int") "json: unsupported type: chan int" rfl

/-- C6: when the broker write fails, `Publish` returns an error wrapping
the transport error, the final state is exactly the state after
`getWriter` (the failure itself changes nothing, in particular no entry is
removed), the topic's entry is present in the map, and a later `getWriter`
for the topic returns that same cached writer without touching the map —
the connection stays reusable. -/
theorem publish_transport_failure_keeps_entry
    (wr : Writer → Message → Except String Unit) (p : Producer)
    (topic key : String) (payload : GoValue) (d : Json) (emsg : String)
    (hm : goMarshal payload = Except.ok d)
    (hw : wr (p.getWriter topic).1 { key := key, value := d } = Except.error emsg) :
    Producer.Publish wr p topic key payload
      = (Except.error ("failed to publish to " ++ topic ++ ": " ++ emsg),
         (p.getWriter topic).2, [((p.getWriter topic).1, { key := key, value := d })]) ∧
    lookupTopic (p.getWriter topic).2.writers topic = some (p.getWriter topic).1 ∧
    (p.getWriter topic).2.getWriter topic = ((p.getWriter topic).1, (p.getWriter topic).2) := by
  refine ⟨?_, getWriter_lookup p topic, ?_⟩
  · unfold Producer.Publish
    rw [hm]
    simp only [hw]
  · exact getWriter_of_found _ topic _ (getWriter_lookup p topic)

/-- Witness for C6: on a fresh producer, an always-failing broker makes
`Publish("orders", "123", payload)` fail with the wrapped transport error
while the writer created for `orders` stays cached and reusable. -/
theorem publish_transport_failure_keeps_entry_witness :
    Producer.Publish (fun _ _ => Except.error "broker ack failed") (NewProducer ["broker1"])
        "orders" "123" (GoValue.json (Json.str "payload"))
      = (Except.error ("failed to publish to " ++ "orders" ++ ": " ++ "broker ack failed"),
         ((NewProducer ["broker1"]).getWriter "orders").2,
         [(((NewProducer ["broker1"]).getWriter "orders").1,
           { key := "123", value := Json.str "payload" })]) ∧
    lookupTopic ((NewProducer ["broker1"]).getWriter "orders").2.writers "orders"
      = some ((NewProducer ["broker1"]).getWriter "orders").1 ∧
    ((NewProducer ["broker1"]).getWriter "orders").2.getWriter "orders"
      = (((NewProducer ["broker1"]).getWriter "orders").1,
         ((NewProducer ["broker1"]).getWriter "orders").2) :=
  publish_transport_failure_keeps_entry (fun _ _ => Except.error "broker ack failed")
    (NewProducer ["broker1"]) "orders" "123" (GoValue.json (Json.str "payload"))
    (Json.str "payload") "broker ack failed" rfl rfl

/-- C5 counterexample: a single publish (N = 1) whose payload cannot be
serialized returns before touching the map, so NO connection entry is
created for the topic — the claimed "exactly one connection per N ≥ 1
publishes" fails. -/
theorem publish_unserializable_creates_no_entry :
    ¬ countTopic ((Producer.Publish (fun _ _ => Except.ok ()) (NewProducer ["broker1"])
        "orders" "k" (GoValue.unserializable "chan int")).2.1.writers) "orders" = 1 := by
  decide

/-- The writer map after a run of sequential publishes to one topic whose
first payload serializes: exactly the original map extended by the one
writer created on the first call; every later call finds it cached. -/
theorem publishSeq_writers (wr : Writer → Message → Except String Unit) (p : Producer)
    (topic : String) (keys : Nat → String) (payloads : Nat → GoValue) (d0 : Json)
    (hnone : lookupTopic p.writers topic = none)
    (h0 : goMarshal (payloads 0) = Except.ok d0) :
    ∀ n : Nat, 1 ≤ n →
      (publishSeq wr p topic keys payloads n).writers
        = p.writers ++ [(topic, mkWriter p.brokers topic)] := by
  intro n hn
  induction n with
  | zero => omega
  | succ m ih =>
      by_cases hm : 1 ≤ m
      · have hw := ih hm
        show (Producer.Publish wr (publishSeq wr p topic keys payloads m) topic
                (keys m) (payloads m)).2.1.writers = _
        unfold Producer.Publish
        cases hmar : goMarshal (payloads m) with
        | error e => simpa using hw
        | ok d =>
            have hfound : lookupTopic (publishSeq wr p topic keys payloads m).writers topic
                = some (mkWriter p.brokers topic) := by
              rw [hw]
              exact lookupTopic_append_self p.writers topic (mkWriter p.brokers topic) hnone
            have hget := getWriter_of_found (publishSeq wr p topic keys payloads m) topic
              (mkWriter p.brokers topic) hfound
            rw [hget]
            dsimp only
            cases wr (mkWriter p.brokers topic) { key := keys m, value := d } <;>
              simpa using hw
      · have hm0 : m = 0 := by omega
        subst hm0
        show (Producer.Publish wr p topic (keys 0) (payloads 0)).2.1.writers = _
        unfold Producer.Publish
        rw [h0]
        have hget : p.getWriter topic
            = (mkWriter p.brokers topic,
               { writers := p.writers ++ [(topic, mkWriter p.brokers topic)],
                 brokers := p.brokers }) := by
          unfold Producer.getWriter
          rw [hnone]
        rw [hget]
        dsimp only
        cases wr (mkWriter p.brokers topic) { key := keys 0, value := d0 } <;> simp

/-- C5 amended: for every run of N ≥ 1 sequential publishes to one topic
on one producer whose first payload serializes, exactly one writer is
created for the topic: the final map is the original map plus that single
entry, it holds exactly one entry for the topic, and `getWriter` on the
final state returns the cached writer without modifying anything. -/
theorem publishSeq_exactly_one_writer (wr : Writer → Message → Except String Unit)
    (p : Producer) (topic : String) (keys : Nat → String) (payloads : Nat → GoValue)
    (d0 : Json) (N : Nat)
    (hnone : lookupTopic p.writers topic = none)
    (h0 : goMarshal (payloads 0) = Except.ok d0) (hN : 1 ≤ N) :
    (publishSeq wr p topic keys payloads N).writers
        = p.writers ++ [(topic, mkWriter p.brokers topic)] ∧
    countTopic (publishSeq wr p topic keys payloads N).writers topic = 1 ∧
    (publishSeq wr p topic keys payloads N).getWriter topic
        = (mkWriter p.brokers topic, publishSeq wr p topic keys payloads N) := by
  have hw := publishSeq_writers wr p topic keys payloads d0 hnone h0 N hN
  refine ⟨hw, ?_, ?_⟩
  · rw [hw]
    unfold countTopic
    rw [List.countP_append]
    have h1 : countTopic p.writers topic = 0 := countTopic_of_lookup_none p.writers topic hnone
    unfold countTopic at h1
    rw [h1]
    simp
  · refine getWriter_of_found _ topic _ ?_
    rw [hw]
    exact lookupTopic_append_self p.writers topic (mkWriter p.brokers topic) hnone

/-- Witness for C5's amended theorem: two publishes of a string payload to
`orders` on a fresh producer leave exactly the one writer entry. -/
theorem publishSeq_exactly_one_writer_witness :
    (publishSeq (fun _ _ => Except.ok ()) (NewProducer ["broker1"]) "orders"
        (fun _ => "k") (fun _ => GoValue.json (Json.str "v")) 2).writers
        = (NewProducer ["broker1"]).writers
            ++ [("orders", mkWriter (NewProducer ["broker1"]).brokers "orders")] ∧
    countTopic (publishSeq (fun _ _ => Except.ok ()) (NewProducer ["broker1"]) "orders"
        (fun _ => "k") (fun _ => GoValue.json (Json.str "v")) 2).writers "orders" = 1 ∧
    (publishSeq (fun _ _ => Except.ok ()) (NewProducer ["broker1"]) "orders"
        (fun _ => "k") (fun _ => GoValue.json (Json.str "v")) 2).getWriter "orders"
        = (mkWriter (NewProducer ["broker1"]).brokers "orders",
           publishSeq (fun _ _ => Except.ok ()) (NewProducer ["broker1"]) "orders"
             (fun _ => "k") (fun _ => GoValue.json (Json.str "v")) 2) :=
  publishSeq_exactly_one_writer (fun _ _ => Except.ok ()) (NewProducer ["broker1"])
    "orders" (fun _ => "k") (fun _ => GoValue.json (Json.str "v")) (Json.str "v") 2
    rfl rfl (by omega)

/-- C1: in every execution of the consume loop the consumer position is
committed only after successful handling: every commit call in the trace
immediately follows a successful handler return for the same message, and
an iteration whose handler fails performs no commit call at all and ends
in `continue`. -/
theorem consume_commits_only_after_success :
    (∀ iters : List Iter, commitOnlyAfterHandle (consumeLoop iters).2 = true) ∧
    (∀ (it : Iter) (m : Msg), it.ctxDoneAtSelect = false → it.fetch = Except.ok m →
      it.handlerFails = true →
      consumeStep it
        = (none, [ConsumeEvent.fetchCall, ConsumeEvent.handleErrLogged m.offset])) := by
  constructor
  · intro iters
    induction iters with
    | nil => rfl
    | cons it rest ih =>
        show commitOnlyAfterHandle (consumeLoop (it :: rest)).2 = true
        unfold consumeLoop consumeStep
        by_cases hc : it.ctxDoneAtSelect
        · simp [hc, commitOnlyAfterHandle]
        · cases hf : it.fetch with
          | error e =>
              cases hce : it.ctxErrAtFetchFail with
              | some ce => simp [hc, commitOnlyAfterHandle]
              | none => simpa [hc, commitOnlyAfterHandle] using ih
          | ok m =>
              by_cases hh : it.handlerFails
              · simpa [hc, hh, commitOnlyAfterHandle] using ih
              · by_cases hcf : it.commitFails
                · simpa [hc, hh, hcf, commitOnlyAfterHandle] using ih
                · simpa [hc, hh, hcf, commitOnlyAfterHandle] using ih
  · intro it m hc hf hh
    simp [consumeStep, hc, hf, hh]

/-- Witness for C1: the spec's redelivery scenario — the handler fails on
the first delivery and succeeds on the redelivery — produces exactly one
commit call, for the successful attempt only, and the failing iteration
commits nothing and continues. -/
theorem consume_commits_only_after_success_witness :
    commitOnlyAfterHandle (consumeLoop
      [{ ctxDoneAtSelect := false, selectCtxErr := "", fetch := Except.ok
           { offset := 7, key := "k", value := Json.str "v" },
         ctxErrAtFetchFail := none, handlerFails := true, commitFails := false },
       { ctxDoneAtSelect := false, selectCtxErr := "", fetch := Except.ok
           { offset := 7, key := "k", value := Json.str "v" },
         ctxErrAtFetchFail := none, handlerFails := false, commitFails := false }]).2 = true ∧
    consumeStep
      { ctxDoneAtSelect := false, selectCtxErr := "", fetch := Except.ok
          { offset := 7, key := "k", value := Json.str "v" },
        ctxErrAtFetchFail := none, handlerFails := true, commitFails := false }
      = (none, [ConsumeEvent.fetchCall, ConsumeEvent.handleErrLogged 7]) :=
  ⟨consume_commits_only_after_success.1 _,
   consume_commits_only_after_success.2 _
     { offset := 7, key := "k", value := Json.str "v" } rfl rfl rfl⟩

/-- C7: after any prefix of non-returning iterations, a fetch failure with
the context cancelled makes `Consume` return the cancellation reason (the
context's error, not the fetch error) and the trace ends at that very
fetch — no later fetch call occurs; and a fetch failure without
cancellation only logs and the loop continues with the rest of the
script. -/
theorem consume_cancellation_mid_fetch :
    (∀ (pre : List Iter) (it : Iter) (rest : List Iter) (e ce : String),
      (∀ j ∈ pre, (consumeStep j).1 = none) →
      it.ctxDoneAtSelect = false → it.fetch = Except.error e →
      it.ctxErrAtFetchFail = some ce →
      consumeLoop (pre ++ it :: rest)
        = (some ce, (pre.map (fun j => (consumeStep j).2)).flatten
                      ++ [ConsumeEvent.fetchCall])) ∧
    (∀ (it : Iter) (rest : List Iter) (e : String),
      it.ctxDoneAtSelect = false → it.fetch = Except.error e →
      it.ctxErrAtFetchFail = none →
      consumeLoop (it :: rest)
        = ((consumeLoop rest).1,
           ConsumeEvent.fetchCall :: ConsumeEvent.fetchErrLogged :: (consumeLoop rest).2)) := by
  constructor
  · intro pre it rest e ce hpre hc hf hce
    induction pre with
    | nil =>
        show consumeLoop (it :: rest) = _
        unfold consumeLoop consumeStep
        simp [hc, hf, hce]
    | cons j pre' ih =>
        have hj : (consumeStep j).1 = none := hpre j (by simp)
        have ih' := ih (fun j' hj' => hpre j' (by simp [hj']))
        show consumeLoop (j :: (pre' ++ it :: rest)) = _
        unfold consumeLoop
        cases hs : consumeStep j with
        | mk r evs =>
            rw [hs] at hj
            simp only at hj
            subst hj
            simp [ih', hs, List.append_assoc]
  · intro it rest e hc hf hce
    have hs : consumeStep it = (none, [ConsumeEvent.fetchCall, ConsumeEvent.fetchErrLogged]) := by
      simp [consumeStep, hc, hf, hce]
    show consumeLoop (it :: rest) = _
    rw [consumeLoop, hs]
    rfl

/-- Witness for C7: a cancelled fetch on the second iteration (after one
transiently failing fetch) returns `context canceled` with no fetch call
afterwards, and the transient fetch error alone logs and continues. -/
theorem consume_cancellation_mid_fetch_witness :
    consumeLoop
        [{ ctxDoneAtSelect := false, selectCtxErr := "", fetch := Except.error "io timeout",
           ctxErrAtFetchFail := none, handlerFails := false, commitFails := false },
         { ctxDoneAtSelect := false, selectCtxErr := "", fetch := Except.error "fetch failed",
           ctxErrAtFetchFail := some "context canceled", handlerFails := false,
           commitFails := false },
         { ctxDoneAtSelect := false, selectCtxErr := "", fetch := Except.ok
             { offset := 9, key := "k", value := Json.str "v" },
           ctxErrAtFetchFail := none, handlerFails := false, commitFails := false }]
      = (some "context canceled",
         [ConsumeEvent.fetchCall, ConsumeEvent.fetchErrLogged, ConsumeEvent.fetchCall]) := by
  have h := consume_cancellation_mid_fetch.1
    [{ ctxDoneAtSelect := false, selectCtxErr := "", fetch := Except.error "io timeout",
       ctxErrAtFetchFail := none, handlerFails := false, commitFails := false }]
    { ctxDoneAtSelect := false, selectCtxErr := "", fetch := Except.error "fetch failed",
      ctxErrAtFetchFail := some "context canceled", handlerFails := false,
      commitFails := false }
    [{ ctxDoneAtSelect := false, selectCtxErr := "", fetch := Except.ok
         { offset := 9, key := "k", value := Json.str "v" },
       ctxErrAtFetchFail := none, handlerFails := false, commitFails := false }]
    "fetch failed" "context canceled" (by intro j hj; simp at hj; subst hj; rfl) rfl rfl rfl
  simpa using h

theorem neg_tmod_dividend (a b : Int) : (-a).tmod b = -(a.tmod b) := by
  rw [Int.tmod_def, Int.tmod_def, Int.neg_tdiv]
  ring

theorem neg_lt_tmod (a : Int) {b : Int} (hb : 0 < b) : -b < a.tmod b := by
  rcases le_or_lt 0 a with ha | ha
  · have h0 : 0 ≤ a.tmod b := Int.tmod_nonneg b ha
    linarith
  · have h1 : a.tmod b = -((-a).tmod b) := by
      rw [neg_tmod_dividend, neg_neg]
    have h2 : (-a).tmod b < b := Int.tmod_lt_of_pos (-a) hb
    omega

/-- C10: for every call with `limit > 0`, `total_pages` as computed by
`Paginated` equals the ceiling of `total / limit` (over the rationals);
and the unguarded integer division makes `limit = 0` undefined (a Go
runtime panic, modelled as `none`), so `limit ≠ 0` is a genuine
precondition. -/
theorem paginated_total_pages_is_ceil (total limit : Int) :
    (0 < limit →
      paginatedTotalPages total limit = some ⌈(total : ℚ) / (limit : ℚ)⌉) ∧
    (limit = 0 → paginatedTotalPages total limit = none) := by
  constructor
  · intro hl
    have hne : limit ≠ 0 := ne_of_gt hl
    have hlQ : (0 : ℚ) < (limit : ℚ) := by exact_mod_cast hl
    have hqr : (limit : ℚ) * (total.tdiv limit : ℚ) + (total.tmod limit : ℚ) = (total : ℚ) := by
      exact_mod_cast Int.tdiv_add_tmod total limit
    have hub : (total.tmod limit : ℚ) < (limit : ℚ) := by
      exact_mod_cast Int.tmod_lt_of_pos total hl
    have hlb : -(limit : ℚ) < (total.tmod limit : ℚ) := by
      exact_mod_cast neg_lt_tmod total hl
    unfold paginatedTotalPages
    rw [if_neg hne]
    refine congrArg some ?_
    by_cases hr : total.tmod limit > 0
    · have hrQ : (0 : ℚ) < (total.tmod limit : ℚ) := by exact_mod_cast hr
      rw [if_pos hr]
      refine (Int.ceil_eq_iff.mpr ⟨?_, ?_⟩).symm
      · rw [lt_div_iff₀ hlQ]
        push_cast
        nlinarith
      · rw [div_le_iff₀ hlQ]
        push_cast
        nlinarith
    · push_neg at hr
      have hrQ : (total.tmod limit : ℚ) ≤ 0 := by exact_mod_cast hr
      rw [if_neg (by omega : ¬ total.tmod limit > 0)]
      refine (Int.ceil_eq_iff.mpr ⟨?_, ?_⟩).symm
      · rw [lt_div_iff₀ hlQ]
        nlinarith
      · rw [div_le_iff₀ hlQ]
        nlinarith
  · intro h0
    simp [paginatedTotalPages, h0]

/-- Witness for C10: 7 items at page size 2 give `⌈7/2⌉` pages, which
evaluates to 4; page size 0 has no defined result. -/
theorem paginated_total_pages_is_ceil_witness :
    paginatedTotalPages 7 2 = some ⌈(7 : ℚ) / (2 : ℚ)⌉ ∧
    paginatedTotalPages 7 2 = some 4 ∧
    paginatedTotalPages 7 0 = none :=
  ⟨(paginated_total_pages_is_ceil 7 2).1 (by norm_num), by decide,
   (paginated_total_pages_is_ceil 7 0).2 rfl⟩

end LibCommon
